import Mathlib

/-!
Verification of the Hangman drawing component (`src/components/Hangman/Hangman.jsx`).

The component's algorithmic core is embedded shallowly:

* a canvas 2D context is modelled as the list of stroke events committed to the
  surface (each stroke event records the line width in effect and the path
  commands accumulated since the last `beginPath`), together with the current
  line width and current path;
* each part-drawing closure produced by `getHangmanParts` becomes a Lean
  function `CanvasContext → CanvasContext`;
* the draw `useEffect` becomes a state-transition function `drawEffect` on an
  explicit `RenderState` (the refs `drawnPartsRef`, `previousIncorrectGuessCountRef`
  and the canvas surface);
* JavaScript `Array.prototype.slice` with integer arguments (possibly negative)
  is modelled by `jsSlice`.

Coordinates are rationals; angles of `arc` are recorded in units of π radians
(so JavaScript `Math.PI * 2` is recorded as `2`).
-/

namespace HangmanModel

/-- One path command issued to the canvas context.  Angles of `arc` are in
units of π radians. -/
inductive PathCmd where
  | moveTo (x y : ℚ)
  | lineTo (x y : ℚ)
  | arc (x y radius startAngle endAngle : ℚ) (anticlockwise : Bool)
  deriving DecidableEq, Repr

/-- A stroke committed to the surface: the line width in effect at the
`stroke()` call and the path accumulated since the last `beginPath()`. -/
structure StrokeEvent where
  width : ℚ
  path : List PathCmd
  deriving DecidableEq, Repr, Inhabited

/-- The canvas 2D rendering context: its mutable line width, the current path
under construction, and the strokes already painted onto the surface
(in painting order). -/
structure CanvasContext where
  lineWidth : ℚ
  currentPath : List PathCmd
  painted : List StrokeEvent
  deriving DecidableEq, Repr

namespace CanvasContext

/-- `canvasContext.lineWidth = w`. -/
def setLineWidth (c : CanvasContext) (w : ℚ) : CanvasContext :=
  { c with lineWidth := w }

/-- `canvasContext.beginPath()`. -/
def beginPath (c : CanvasContext) : CanvasContext :=
  { c with currentPath := [] }

/-- `canvasContext.moveTo(x, y)`. -/
def moveTo (c : CanvasContext) (x y : ℚ) : CanvasContext :=
  { c with currentPath := c.currentPath ++ [PathCmd.moveTo x y] }

/-- `canvasContext.lineTo(x, y)`. -/
def lineTo (c : CanvasContext) (x y : ℚ) : CanvasContext :=
  { c with currentPath := c.currentPath ++ [PathCmd.lineTo x y] }

/-- `canvasContext.arc(x, y, r, a, b, ccw)` (angles in units of π). -/
def arc (c : CanvasContext) (x y radius startAngle endAngle : ℚ)
    (anticlockwise : Bool) : CanvasContext :=
  { c with currentPath :=
      c.currentPath ++ [PathCmd.arc x y radius startAngle endAngle anticlockwise] }

/-- `canvasContext.stroke()`: commits the current path with the current line
width to the surface. -/
def stroke (c : CanvasContext) : CanvasContext :=
  { c with painted := c.painted ++ [⟨c.lineWidth, c.currentPath⟩] }

end CanvasContext

/-- A fresh 2D context on a blank canvas (the default line width of a canvas
context is 1). -/
def emptyCtx : CanvasContext :=
  { lineWidth := 1, currentPath := [], painted := [] }

/-- `const bodyHeight = size / 2` in `getHangmanParts`. -/
def bodyHeight (size : ℚ) : ℚ := size / 2

/-- `const appendageWidth = bodyHeight / 3` in `getHangmanParts`. -/
def appendageWidth (size : ℚ) : ℚ := bodyHeight size / 3

/-- The `platform` closure of `getHangmanParts`. -/
def platform (size : ℚ) : CanvasContext → CanvasContext := fun canvasContext =>
  ((((canvasContext.setLineWidth 10).beginPath).moveTo 0 size).lineTo size size).stroke

/-- The `post` closure of `getHangmanParts`. -/
def post (size : ℚ) : CanvasContext → CanvasContext := fun canvasContext =>
  ((((canvasContext.setLineWidth 10).beginPath).moveTo 0 0).lineTo 0 size).stroke

/-- The `pole` closure of `getHangmanParts`. -/
def pole (size : ℚ) : CanvasContext → CanvasContext := fun canvasContext =>
  ((((canvasContext.setLineWidth 10).beginPath).moveTo 0 0).lineTo (size / 2) 0).stroke

/-- The `rope` closure of `getHangmanParts`. -/
def rope (size : ℚ) : CanvasContext → CanvasContext := fun canvasContext =>
  (((canvasContext.beginPath).moveTo (size / 2) 0).lineTo (size / 2) (size / 10)).stroke

/-- The `head` closure of `getHangmanParts` (`Math.PI * 2` recorded as `2`). -/
def head (size : ℚ) : CanvasContext → CanvasContext := fun canvasContext =>
  ((canvasContext.beginPath).arc (size / 2) (size / 10 + size / 16) (size / 16)
    0 2 true).stroke

/-- The `body` closure of `getHangmanParts`. -/
def body (size : ℚ) : CanvasContext → CanvasContext := fun canvasContext =>
  (((canvasContext.beginPath).moveTo (size / 2) (size / 10 + size / 8)).lineTo
    (size / 2) (size - bodyHeight size)).stroke

/-- The `leftArm` closure of `getHangmanParts`. -/
def leftArm (size : ℚ) : CanvasContext → CanvasContext := fun canvasContext =>
  (((canvasContext.beginPath).moveTo (size / 2) (size / 3)).lineTo
    (size / 2 - appendageWidth size) (size / 3)).stroke

/-- The `rightArm` closure of `getHangmanParts`. -/
def rightArm (size : ℚ) : CanvasContext → CanvasContext := fun canvasContext =>
  (((canvasContext.beginPath).moveTo (size / 2) (size / 3)).lineTo
    (size / 2 + appendageWidth size) (size / 3)).stroke

/-- The `leftLeg` closure of `getHangmanParts`. -/
def leftLeg (size : ℚ) : CanvasContext → CanvasContext := fun canvasContext =>
  (((canvasContext.beginPath).moveTo (size / 2) (size - bodyHeight size)).lineTo
    (size / 2 - appendageWidth size) (size - bodyHeight size + appendageWidth size)).stroke

/-- The `rightLeg` closure of `getHangmanParts`. -/
def rightLeg (size : ℚ) : CanvasContext → CanvasContext := fun canvasContext =>
  (((canvasContext.beginPath).moveTo (size / 2) (size - bodyHeight size)).lineTo
    (size / 2 + appendageWidth size) (size - bodyHeight size + appendageWidth size)).stroke

/-- `getHangmanParts(size)`: the ordered array of part-drawing functions. -/
def getHangmanParts (size : ℚ) : List (CanvasContext → CanvasContext) :=
  [platform size, post size, pole size, rope size, head size, body size,
   leftArm size, rightArm size, leftLeg size, rightLeg size]

/-- The `draw` helper: resets the line width to the default 2, then invokes the
part-drawing function. -/
def draw (canvasContext : CanvasContext) (drawFn : CanvasContext → CanvasContext) :
    CanvasContext :=
  drawFn (canvasContext.setLineWidth 2)

/-- `clearCanvas`: `context.clearRect(0, 0, canvas.width, canvas.height)`
erases every painted stroke from the surface (context state such as the line
width is untouched). -/
def clearCanvas (c : CanvasContext) : CanvasContext :=
  { c with painted := [] }

/-- Drawing a list of parts in order, each through `draw`
(`partsToDraw.forEach(f => draw(context, f))`). -/
def runOps (ops : List (CanvasContext → CanvasContext)) (c : CanvasContext) :
    CanvasContext :=
  ops.foldl (fun c f => draw c f) c

/-- One bound of JavaScript `Array.prototype.slice` on an array of length
`len`: a negative index counts from the end (clamped below at 0), a
non-negative one is clamped above at `len`. -/
def jsSliceBound (len : ℕ) (i : ℤ) : ℕ :=
  if i < 0 then ((len : ℤ) + i).toNat else min i.toNat len

/-- JavaScript `xs.slice(a, b)` for integer arguments. -/
def jsSlice {α : Type} (xs : List α) (a b : ℤ) : List α :=
  (xs.take (jsSliceBound xs.length b)).drop (jsSliceBound xs.length a)

/-- The component's render-relevant state: `drawnPartsRef.current`,
`previousIncorrectGuessCountRef.current`, and the canvas surface. -/
structure RenderState where
  drawnParts : ℤ
  previousIncorrectGuessCount : ℤ
  ctx : CanvasContext
  deriving DecidableEq, Repr

/-- `resetCanvas`: clears the canvas and resets `drawnPartsRef.current` to 0. -/
def resetCanvas (st : RenderState) : RenderState :=
  { st with ctx := clearCanvas st.ctx, drawnParts := 0 }

/-- The draw `useEffect` body, run with the current memoized parts array and
the `incorrectGuessCount` prop: reset if the guess count went backward, record
the new previous count, draw `hangmanParts.slice(drawnPartsRef.current, incorrectGuessCount)`,
then set `drawnPartsRef.current = incorrectGuessCount`. -/
def drawEffect (hangmanParts : List (CanvasContext → CanvasContext)) (incorrectGuessCount : ℤ)
    (st : RenderState) : RenderState :=
  let st1 := if st.previousIncorrectGuessCount > incorrectGuessCount then resetCanvas st else st
  let partsToDraw := jsSlice hangmanParts st1.drawnParts incorrectGuessCount
  { drawnParts := incorrectGuessCount,
    previousIncorrectGuessCount := incorrectGuessCount,
    ctx := runOps partsToDraw st1.ctx }

/-- A sequence of renders at fixed size: the draw effect run once per guess
count in order. -/
def renderSeq (hangmanParts : List (CanvasContext → CanvasContext)) (counts : List ℤ)
    (st : RenderState) : RenderState :=
  counts.foldl (fun st n => drawEffect hangmanParts n st) st

/-- The state at mount with initial prop `incorrectGuessCount = n₀`:
`drawnPartsRef` starts at 0, `previousIncorrectGuessCountRef` is initialized to
the prop, the canvas is blank. -/
def initState (n₀ : ℤ) : RenderState :=
  { drawnParts := 0, previousIncorrectGuessCount := n₀, ctx := emptyCtx }

/-- The `useMemo(() => getHangmanParts(size), [size])` cache: the previously
generated array is reused when the size key is unchanged, and regenerated
otherwise. -/
def memoParts (prevSize newSize : ℚ)
    (prevMemo : List (CanvasContext → CanvasContext)) :
    List (CanvasContext → CanvasContext) :=
  if newSize = prevSize then prevMemo else getHangmanParts newSize

/-- A render whose size changed to `newSize` with guess count `n`: the
`useEffect(resetCanvas, [size])` reset runs first, then the draw effect runs
with the regenerated parts. -/
def sizeChangeStep (newSize : ℚ) (n : ℤ) (st : RenderState) : RenderState :=
  drawEffect (getHangmanParts newSize) n (resetCanvas st)

/-- The stroke each of the 10 parts commits when invoked through `draw`
(platform, post and pole set their own width 10; the rest keep the reset
default 2). -/
def partStrokes (size : ℚ) : List StrokeEvent :=
  [⟨10, [PathCmd.moveTo 0 size, PathCmd.lineTo size size]⟩,
   ⟨10, [PathCmd.moveTo 0 0, PathCmd.lineTo 0 size]⟩,
   ⟨10, [PathCmd.moveTo 0 0, PathCmd.lineTo (size / 2) 0]⟩,
   ⟨2, [PathCmd.moveTo (size / 2) 0, PathCmd.lineTo (size / 2) (size / 10)]⟩,
   ⟨2, [PathCmd.arc (size / 2) (size / 10 + size / 16) (size / 16) 0 2 true]⟩,
   ⟨2, [PathCmd.moveTo (size / 2) (size / 10 + size / 8),
        PathCmd.lineTo (size / 2) (size - bodyHeight size)]⟩,
   ⟨2, [PathCmd.moveTo (size / 2) (size / 3),
        PathCmd.lineTo (size / 2 - appendageWidth size) (size / 3)]⟩,
   ⟨2, [PathCmd.moveTo (size / 2) (size / 3),
        PathCmd.lineTo (size / 2 + appendageWidth size) (size / 3)]⟩,
   ⟨2, [PathCmd.moveTo (size / 2) (size - bodyHeight size),
        PathCmd.lineTo (size / 2 - appendageWidth size)
          (size - bodyHeight size + appendageWidth size)]⟩,
   ⟨2, [PathCmd.moveTo (size / 2) (size - bodyHeight size),
        PathCmd.lineTo (size / 2 + appendageWidth size)
          (size - bodyHeight size + appendageWidth size)]⟩]

/-- JavaScript clamping of a guess count to the sequence length, as the spec
states it: to the interval [0, 10]. -/
def clampCount (n : ℤ) : ℤ := max 0 (min n 10)

/-- `f` commits exactly the stroke `e` to the surface when invoked through
`draw`, leaving previously painted strokes intact. -/
def AppendsStroke (f : CanvasContext → CanvasContext) (e : StrokeEvent) : Prop :=
  ∀ c, (draw c f).painted = c.painted ++ [e]

/-- The stroke a single part commits when drawn through `draw` on a blank
context. -/
def strokeOf (f : CanvasContext → CanvasContext) : StrokeEvent :=
  ((draw emptyCtx f).painted).headI

/-- Endpoints of a straight stroke (one `moveTo` followed by one `lineTo`). -/
def segEndpoints (e : StrokeEvent) : (ℚ × ℚ) × (ℚ × ℚ) :=
  match e.path with
  | [PathCmd.moveTo x₁ y₁, PathCmd.lineTo x₂ y₂] => ((x₁, y₁), (x₂, y₂))
  | _ => ((0, 0), (0, 0))

/-- Horizontal extent of a straight stroke. -/
def segDx (e : StrokeEvent) : ℚ :=
  (segEndpoints e).2.1 - (segEndpoints e).1.1

/-- Vertical extent of a straight stroke. -/
def segDy (e : StrokeEvent) : ℚ :=
  (segEndpoints e).2.2 - (segEndpoints e).1.2

/-- Center and radius of a single-arc stroke. -/
def arcSpec (e : StrokeEvent) : (ℚ × ℚ) × ℚ :=
  match e.path with
  | [PathCmd.arc x y r _ _ _] => ((x, y), r)
  | _ => ((0, 0), 0)

/-- The proportions of the generated geometry exactly as the spec states them:
rope length `size/10`; head an arc of radius `size/16` centered below the
rope; body segment of height `size/2` with its bottom at `y = size/2`; each
limb extending `bodyHeight/3 = size/6` from its attachment point (arms
horizontal, legs down-and-out diagonals). -/
def specProportions (s : ℚ) : Prop :=
  (segDy (strokeOf (rope s)) = s / 10 ∧ segDx (strokeOf (rope s)) = 0)
  ∧ arcSpec (strokeOf (head s)) = ((s / 2, s / 10 + s / 16), s / 16)
  ∧ segDy (strokeOf (body s)) = s / 2
  ∧ (segEndpoints (strokeOf (body s))).2.2 = s / 2
  ∧ (segDx (strokeOf (leftArm s)) = -(s / 6) ∧ segDy (strokeOf (leftArm s)) = 0)
  ∧ (segDx (strokeOf (rightArm s)) = s / 6 ∧ segDy (strokeOf (rightArm s)) = 0)
  ∧ (segDx (strokeOf (leftLeg s)) = -(s / 6) ∧ segDy (strokeOf (leftLeg s)) = s / 6)
  ∧ (segDx (strokeOf (rightLeg s)) = s / 6 ∧ segDy (strokeOf (rightLeg s)) = s / 6)

/-- The render-state invariant the spec asserts, restricted to the states the
component can actually reach at a fixed size: the surface holds exactly the
first `drawnParts` strokes, the two refs agree, and the count is in range. -/
def StateInv (s : ℚ) (st : RenderState) : Prop :=
  st.ctx.painted = (partStrokes s).take st.drawnParts.toNat
  ∧ st.previousIncorrectGuessCount = st.drawnParts
  ∧ 0 ≤ st.drawnParts ∧ st.drawnParts ≤ 10

/-- Modelled from the spec: the resize subsystem's temporal state.  The
debouncing itself lives in lodash's `debounce` (an external library, not in
this repository); per the spec it is a trailing-edge cancel-and-reschedule
timer, so a scheduled recomputation stays pending until it either fires after
the 50 ms quiet window or is explicitly cancelled.  The state records whether
the window resize listener is registered and whether a debounced call is
pending. -/
structure ResizeSystem where
  listenerRegistered : Bool
  pendingDebounce : Bool
  deriving DecidableEq, Repr

/-- The mount effect registers the resize listener
(`window.addEventListener('resize', resizeCanvasDebounce)`). -/
def mountResize (rs : ResizeSystem) : ResizeSystem :=
  { rs with listenerRegistered := true }

/-- A window resize event while the listener is registered schedules (or
reschedules) the debounced `resizeCanvas` call. -/
def resizeEvent (rs : ResizeSystem) : ResizeSystem :=
  if rs.listenerRegistered then { rs with pendingDebounce := true } else rs

/-- The unmount cleanup exactly as the source has it:
`window.removeEventListener('resize', resizeCanvasDebounce)` — and nothing
else; the pending-debounce state is untouched. -/
def unmountCleanup (rs : ResizeSystem) : ResizeSystem :=
  { rs with listenerRegistered := false }

/-- Modelled from the spec: once the 50 ms quiet window elapses, a still
pending debounced callback fires (running `resizeCanvas` and recomputing the
size) unless it was cancelled beforehand. -/
def debounceFires (rs : ResizeSystem) : Bool := rs.pendingDebounce

theorem hangman_forall2 (s : ℚ) :
    List.Forall₂ AppendsStroke (getHangmanParts s) (partStrokes s) := by
  refine .cons ?_ (.cons ?_ (.cons ?_ (.cons ?_ (.cons ?_ (.cons ?_ (.cons ?_
    (.cons ?_ (.cons ?_ (.cons ?_ .nil))))))))) <;> intro c <;> rfl

theorem runOps_painted {ops : List (CanvasContext → CanvasContext)}
    {es : List StrokeEvent} (h : List.Forall₂ AppendsStroke ops es) :
    ∀ c, (runOps ops c).painted = c.painted ++ es := by
  induction h with
  | nil => intro c; simp [runOps]
  | @cons f e ops es hf _ ih =>
      intro c
      have hstep : runOps (f :: ops) c = runOps ops (draw c f) := rfl
      rw [hstep, ih (draw c f), hf c]
      simp

theorem jsSlice_forall2 {α β : Type} {R : α → β → Prop} {l₁ : List α}
    {l₂ : List β} (h : List.Forall₂ R l₁ l₂) (a b : ℤ) :
    List.Forall₂ R (jsSlice l₁ a b) (jsSlice l₂ a b) := by
  have hlen := h.length_eq
  unfold jsSlice
  rw [hlen]
  exact List.forall₂_drop _ (List.forall₂_take _ h)

theorem getHangmanParts_length (s : ℚ) : (getHangmanParts s).length = 10 := rfl

theorem partStrokes_length (s : ℚ) : (partStrokes s).length = 10 := rfl

theorem drawEffect_drawnParts (hangmanParts : List (CanvasContext → CanvasContext))
    (n : ℤ) (st : RenderState) : (drawEffect hangmanParts n st).drawnParts = n := rfl

theorem drawEffect_previous (hangmanParts : List (CanvasContext → CanvasContext))
    (n : ℤ) (st : RenderState) :
    (drawEffect hangmanParts n st).previousIncorrectGuessCount = n := rfl

theorem drawEffect_painted_no_reset (s : ℚ) (n : ℤ) (st : RenderState)
    (h : ¬ st.previousIncorrectGuessCount > n) :
    (drawEffect (getHangmanParts s) n st).ctx.painted
      = st.ctx.painted ++ jsSlice (partStrokes s) st.drawnParts n := by
  unfold drawEffect
  rw [if_neg h]
  exact runOps_painted (jsSlice_forall2 (hangman_forall2 s) st.drawnParts n) st.ctx

theorem drawEffect_painted_reset (s : ℚ) (n : ℤ) (st : RenderState)
    (h : st.previousIncorrectGuessCount > n) :
    (drawEffect (getHangmanParts s) n st).ctx.painted
      = jsSlice (partStrokes s) 0 n := by
  unfold drawEffect
  rw [if_pos h]
  have := runOps_painted (jsSlice_forall2 (hangman_forall2 s) (resetCanvas st).drawnParts n)
    (resetCanvas st).ctx
  simpa [resetCanvas, clearCanvas] using this

theorem jsSliceBound_nonneg (len : ℕ) (i : ℤ) (h0 : 0 ≤ i) (h1 : i ≤ len) :
    jsSliceBound len i = i.toNat := by
  unfold jsSliceBound
  rw [if_neg (by omega)]
  omega

theorem jsSliceBound_neg (len : ℕ) (i : ℤ) (h : i < 0) :
    jsSliceBound len i = ((len : ℤ) + i).toNat := by
  unfold jsSliceBound
  rw [if_pos h]

theorem jsSlice_in_range {α : Type} (xs : List α) (a b : ℤ) (h0 : 0 ≤ a)
    (ha : a ≤ xs.length) (hb0 : 0 ≤ b) (hb : b ≤ xs.length) :
    jsSlice xs a b = (xs.take b.toNat).drop a.toNat := by
  unfold jsSlice
  rw [jsSliceBound_nonneg _ _ h0 ha, jsSliceBound_nonneg _ _ hb0 hb]

theorem jsSlice_self {α : Type} (xs : List α) (a : ℤ) : jsSlice xs a a = [] := by
  unfold jsSlice
  apply List.drop_eq_nil_of_le
  simp

theorem take_append_drop_take {α : Type} (xs : List α) (a b : ℕ) (h : a ≤ b) :
    xs.take a ++ (xs.take b).drop a = xs.take b := by
  rw [show xs.take a = (xs.take b).take a by rw [List.take_take, min_eq_left h]]
  exact List.take_append_drop a (xs.take b)

theorem jsSlice_zero_le (s : ℚ) (n : ℤ) (h0 : 0 ≤ n) (h10 : n ≤ 10) :
    jsSlice (partStrokes s) 0 n = (partStrokes s).take n.toNat := by
  rw [jsSlice_in_range _ 0 n le_rfl (by rw [partStrokes_length]; omega) h0
    (by rw [partStrokes_length]; omega)]
  simp

theorem jsSlice_zero_neg (s : ℚ) (n : ℤ) (hneg : n < 0) :
    jsSlice (partStrokes s) 0 n = (partStrokes s).take (10 + n).toNat := by
  unfold jsSlice
  rw [partStrokes_length, jsSliceBound_neg _ _ hneg,
    jsSliceBound_nonneg 10 0 le_rfl (by norm_num)]
  simp

theorem drawEffect_fixed (hangmanParts : List (CanvasContext → CanvasContext))
    (n : ℤ) (st : RenderState) (h1 : st.drawnParts = n)
    (h2 : st.previousIncorrectGuessCount = n) :
    drawEffect hangmanParts n st = st := by
  obtain ⟨d, p, c⟩ := st
  simp only at h1 h2
  subst h1; subst h2
  simp [drawEffect, jsSlice_self, runOps]

theorem strokeOf_rope (s : ℚ) :
    strokeOf (rope s)
      = ⟨2, [PathCmd.moveTo (s / 2) 0, PathCmd.lineTo (s / 2) (s / 10)]⟩ := rfl

theorem strokeOf_head (s : ℚ) :
    strokeOf (head s)
      = ⟨2, [PathCmd.arc (s / 2) (s / 10 + s / 16) (s / 16) 0 2 true]⟩ := rfl

theorem strokeOf_body (s : ℚ) :
    strokeOf (body s)
      = ⟨2, [PathCmd.moveTo (s / 2) (s / 10 + s / 8),
             PathCmd.lineTo (s / 2) (s - bodyHeight s)]⟩ := rfl

theorem strokeOf_leftArm (s : ℚ) :
    strokeOf (leftArm s)
      = ⟨2, [PathCmd.moveTo (s / 2) (s / 3),
             PathCmd.lineTo (s / 2 - appendageWidth s) (s / 3)]⟩ := rfl

theorem strokeOf_rightArm (s : ℚ) :
    strokeOf (rightArm s)
      = ⟨2, [PathCmd.moveTo (s / 2) (s / 3),
             PathCmd.lineTo (s / 2 + appendageWidth s) (s / 3)]⟩ := rfl

theorem strokeOf_leftLeg (s : ℚ) :
    strokeOf (leftLeg s)
      = ⟨2, [PathCmd.moveTo (s / 2) (s - bodyHeight s),
             PathCmd.lineTo (s / 2 - appendageWidth s)
               (s - bodyHeight s + appendageWidth s)]⟩ := rfl

theorem strokeOf_rightLeg (s : ℚ) :
    strokeOf (rightLeg s)
      = ⟨2, [PathCmd.moveTo (s / 2) (s - bodyHeight s),
             PathCmd.lineTo (s / 2 + appendageWidth s)
               (s - bodyHeight s + appendageWidth s)]⟩ := rfl

/-- C1: for every size `s ≥ 0` (indeed every rational `s`), `getHangmanParts s`
is a pure, deterministic function of `s` — it is a Lean function — returning
exactly 10 drawing operations in the fixed order platform, post, pole, rope,
head, body, leftArm, rightArm, leftLeg, rightLeg. -/
theorem C1_generateParts_ten_fixed_order (s : ℚ) :
    getHangmanParts s
      = [platform s, post s, pole s, rope s, head s, body s,
         leftArm s, rightArm s, leftLeg s, rightLeg s]
    ∧ (getHangmanParts s).length = 10 :=
  ⟨rfl, rfl⟩

/-- C2: on a render at unchanged size with target count `n` at least the
previously observed count, the draw effect paints exactly the strokes of the
operations at indices `[drawnParts, n)` after the already painted ones —
each stroke carrying the line width produced by invoking the operation through
`draw`, which resets the width to 2 first — and repaints nothing (the old
painted list is preserved as a prefix); the drawn count becomes `n`. -/
theorem C2_forward_draw_incremental (s : ℚ) (n : ℤ) (st : RenderState)
    (hprev : st.previousIncorrectGuessCount ≤ n)
    (hd0 : 0 ≤ st.drawnParts) (hdn : st.drawnParts ≤ n) (hn : n ≤ 10) :
    (drawEffect (getHangmanParts s) n st).ctx.painted
      = st.ctx.painted ++ ((partStrokes s).take n.toNat).drop st.drawnParts.toNat
    ∧ (drawEffect (getHangmanParts s) n st).drawnParts = n := by
  constructor
  · rw [drawEffect_painted_no_reset s n st (not_lt.mpr hprev)]
    rw [jsSlice_in_range _ _ n hd0 (by rw [partStrokes_length]; omega)
      (le_trans hd0 hdn) (by rw [partStrokes_length]; omega)]
  · exact drawEffect_drawnParts _ _ _

theorem C2_forward_draw_incremental_witness :
    ((⟨2, 2, ⟨2, [], (partStrokes 160).take 2⟩⟩ :
        RenderState).previousIncorrectGuessCount ≤ 5
      ∧ 0 ≤ (⟨2, 2, ⟨2, [], (partStrokes 160).take 2⟩⟩ : RenderState).drawnParts
      ∧ (⟨2, 2, ⟨2, [], (partStrokes 160).take 2⟩⟩ : RenderState).drawnParts ≤ 5
      ∧ (5 : ℤ) ≤ 10)
    ∧ ((drawEffect (getHangmanParts 160) 5
          ⟨2, 2, ⟨2, [], (partStrokes 160).take 2⟩⟩).ctx.painted
        = (⟨2, 2, ⟨2, [], (partStrokes 160).take 2⟩⟩ :
            RenderState).ctx.painted
          ++ ((partStrokes 160).take (5 : ℤ).toNat).drop
              (⟨2, 2, ⟨2, [], (partStrokes 160).take 2⟩⟩ :
                RenderState).drawnParts.toNat
      ∧ (drawEffect (getHangmanParts 160) 5
          ⟨2, 2, ⟨2, [], (partStrokes 160).take 2⟩⟩).drawnParts = 5) :=
  ⟨⟨by decide, by decide, by decide, by decide⟩,
   C2_forward_draw_incremental 160 5 ⟨2, 2, ⟨2, [], (partStrokes 160).take 2⟩⟩
     (by decide) (by decide) (by decide) (by decide)⟩

/-- C3: on a render whose count `n` is strictly below the previously observed
count (same size), the surface is cleared and the drawn count reset before
forward-drawing, so afterwards the surface holds exactly the first `n`
strokes and the drawn count is `n`; in particular after `7 → 0` the surface is
empty and a subsequent render at `3` draws exactly the first 3 operations
(witness). -/
theorem C3_backward_reset (s : ℚ) (n : ℤ) (st : RenderState)
    (hlt : n < st.previousIncorrectGuessCount) (h0 : 0 ≤ n) (h10 : n ≤ 10) :
    (drawEffect (getHangmanParts s) n st).ctx.painted
      = (partStrokes s).take n.toNat
    ∧ (drawEffect (getHangmanParts s) n st).drawnParts = n := by
  refine ⟨?_, drawEffect_drawnParts _ _ _⟩
  rw [drawEffect_painted_reset s n st hlt, jsSlice_zero_le s n h0 h10]

theorem C3_backward_reset_witness :
    ((0 : ℤ) < (drawEffect (getHangmanParts 160) 7
        (initState 0)).previousIncorrectGuessCount
      ∧ (0 : ℤ) ≤ 0 ∧ (0 : ℤ) ≤ 10)
    ∧ ((drawEffect (getHangmanParts 160) 0
          (drawEffect (getHangmanParts 160) 7 (initState 0))).ctx.painted
        = (partStrokes 160).take (0 : ℤ).toNat
      ∧ (drawEffect (getHangmanParts 160) 0
          (drawEffect (getHangmanParts 160) 7 (initState 0))).drawnParts = 0)
    ∧ (drawEffect (getHangmanParts 160) 0
        (drawEffect (getHangmanParts 160) 7 (initState 0))).ctx.painted = []
    ∧ (drawEffect (getHangmanParts 160) 3
        (drawEffect (getHangmanParts 160) 0
          (drawEffect (getHangmanParts 160) 7 (initState 0)))).ctx.painted
      = (partStrokes 160).take 3 :=
  ⟨⟨by decide, by decide, by decide⟩,
   C3_backward_reset 160 0 (drawEffect (getHangmanParts 160) 7 (initState 0))
     (by decide) (by decide) (by decide),
   by decide, rfl⟩

/-- C4 fails as stated: the code stores the raw `incorrectGuessCount` in
`drawnPartsRef` without clamping.  Rendering with guess count 11 leaves the
stored drawn count at 11, not at the clamp 10 (even though the surface does
show the first 10 strokes), so the claimed invariant is false for inputs above
the sequence length. -/
theorem C4_clamp_counterexample :
    ¬ ((drawEffect (getHangmanParts 160) 11 (initState 11)).drawnParts
          = clampCount 11
       ∧ (drawEffect (getHangmanParts 160) 11 (initState 11)).ctx.painted
          = (partStrokes 160).take (clampCount 11).toNat) := by
  intro h
  have h1 := h.1
  rw [drawEffect_drawnParts] at h1
  unfold clampCount at h1
  omega

/-- C4 (amended): for renders whose input guess count lies in [0, 10] — where
clamping is the identity — the invariant holds: from any reachable state,
after the draw effect the stored drawn count equals the rendered count
(= its clamp) and the surface holds exactly the first drawn-count strokes in
order, and the full state invariant is preserved.  For inputs above 10 or
negative the code stores the unclamped value, refuting the broader claim. -/
theorem C4_drawn_count_invariant (s : ℚ) (n : ℤ) (st : RenderState)
    (hInv : StateInv s st) (h0 : 0 ≤ n) (h10 : n ≤ 10) :
    (drawEffect (getHangmanParts s) n st).drawnParts = clampCount n
    ∧ (drawEffect (getHangmanParts s) n st).ctx.painted
        = (partStrokes s).take (clampCount n).toNat
    ∧ StateInv s (drawEffect (getHangmanParts s) n st) := by
  obtain ⟨hp, hpc, hd0, hd10⟩ := hInv
  have hclamp : clampCount n = n := by unfold clampCount; omega
  have hpaint : (drawEffect (getHangmanParts s) n st).ctx.painted
      = (partStrokes s).take n.toNat := by
    by_cases hlt : st.previousIncorrectGuessCount > n
    · rw [drawEffect_painted_reset s n st hlt, jsSlice_zero_le s n h0 h10]
    · rw [drawEffect_painted_no_reset s n st hlt, hp,
        jsSlice_in_range _ _ n hd0 (by rw [partStrokes_length]; omega) h0
          (by rw [partStrokes_length]; omega)]
      exact take_append_drop_take _ _ _ (by omega)
  refine ⟨by rw [drawEffect_drawnParts, hclamp],
    by rw [hpaint, hclamp], ?_, ?_, ?_, ?_⟩
  · rw [drawEffect_drawnParts]; exact hpaint
  · rw [drawEffect_drawnParts, drawEffect_previous]
  · rw [drawEffect_drawnParts]; exact h0
  · rw [drawEffect_drawnParts]; exact h10

theorem C4_drawn_count_invariant_witness :
    StateInv 160 (initState 0) ∧ ((0 : ℤ) ≤ 6 ∧ (6 : ℤ) ≤ 10)
    ∧ ((drawEffect (getHangmanParts 160) 6 (initState 0)).drawnParts
          = clampCount 6
       ∧ (drawEffect (getHangmanParts 160) 6 (initState 0)).ctx.painted
          = (partStrokes 160).take (clampCount 6).toNat
       ∧ StateInv 160 (drawEffect (getHangmanParts 160) 6 (initState 0))) :=
  ⟨⟨rfl, rfl, by decide, by decide⟩, ⟨by decide, by decide⟩,
   C4_drawn_count_invariant 160 6 (initState 0)
     ⟨rfl, rfl, by decide, by decide⟩ (by decide) (by decide)⟩

/-- C5: on a size change the reset effect clears the surface and zeroes the
drawn count before any redraw; the subsequent draw effect uses the sequence
regenerated from the new size and paints exactly its first `n` strokes (at
the new scale).  The memoization contract: with an unchanged size key the
previously generated sequence is returned as is, and with a changed key the
sequence is regenerated from the new size. -/
theorem C5_size_change_resets_and_memo (s newSize : ℚ)
    (m : List (CanvasContext → CanvasContext)) (n : ℤ) (st : RenderState)
    (h0 : 0 ≤ n) (h10 : n ≤ 10) :
    (resetCanvas st).drawnParts = 0
    ∧ (resetCanvas st).ctx.painted = []
    ∧ (sizeChangeStep newSize n st).ctx.painted
        = (partStrokes newSize).take n.toNat
    ∧ (sizeChangeStep newSize n st).drawnParts = n
    ∧ memoParts s s m = m
    ∧ (newSize ≠ s → memoParts s newSize m = getHangmanParts newSize) := by
  refine ⟨rfl, rfl, ?_, drawEffect_drawnParts _ _ _, ?_, ?_⟩
  · unfold sizeChangeStep
    by_cases hlt : (resetCanvas st).previousIncorrectGuessCount > n
    · rw [drawEffect_painted_reset _ n _ hlt, jsSlice_zero_le _ n h0 h10]
    · rw [drawEffect_painted_no_reset _ n _ hlt]
      rw [show (resetCanvas st).ctx.painted = [] from rfl,
        show (resetCanvas st).drawnParts = 0 from rfl,
        jsSlice_zero_le _ n h0 h10]
      simp
  · unfold memoParts; rw [if_pos rfl]
  · intro hne; unfold memoParts; rw [if_neg hne]

theorem C5_size_change_resets_and_memo_witness :
    ((0 : ℤ) ≤ 5 ∧ (5 : ℤ) ≤ 10)
    ∧ ((resetCanvas (drawEffect (getHangmanParts 300) 5 (initState 5))).drawnParts = 0
       ∧ (resetCanvas (drawEffect (getHangmanParts 300) 5 (initState 5))).ctx.painted = []
       ∧ (sizeChangeStep 400 5
            (drawEffect (getHangmanParts 300) 5 (initState 5))).ctx.painted
          = (partStrokes 400).take (5 : ℤ).toNat
       ∧ (sizeChangeStep 400 5
            (drawEffect (getHangmanParts 300) 5 (initState 5))).drawnParts = 5
       ∧ memoParts 300 300 (getHangmanParts 300) = getHangmanParts 300
       ∧ ((400 : ℚ) ≠ 300 →
            memoParts 300 400 (getHangmanParts 300) = getHangmanParts 400)) :=
  ⟨⟨by decide, by decide⟩,
   C5_size_change_resets_and_memo 300 400 (getHangmanParts 300) 5
     (drawEffect (getHangmanParts 300) 5 (initState 5)) (by decide) (by decide)⟩

/-- C6: at a fixed size, rendering sequentially through the increasing counts
0, 1, …, 10 leaves exactly the same strokes on the surface as a single render
directly at count 10 (incremental draw ≡ batch draw). -/
theorem C6_incremental_eq_batch (s : ℚ) :
    (renderSeq (getHangmanParts s) [0, 1, 2, 3, 4, 5, 6, 7, 8, 9, 10]
        (initState 0)).ctx.painted
      = (drawEffect (getHangmanParts s) 10 (initState 10)).ctx.painted := rfl

/-- C7: re-rendering with the same guess count `n ∈ [0, 10]` draws nothing
further: the forward-draw slice of the second render is empty and the render
state (drawn count, previous count and surface) is unchanged. -/
theorem C7_rerender_idempotent (s : ℚ) (n : ℤ) (st : RenderState)
    (h0 : 0 ≤ n) (h10 : n ≤ 10) :
    jsSlice (getHangmanParts s)
        (drawEffect (getHangmanParts s) n st).drawnParts n = []
    ∧ drawEffect (getHangmanParts s) n (drawEffect (getHangmanParts s) n st)
        = drawEffect (getHangmanParts s) n st := by
  constructor
  · rw [drawEffect_drawnParts]; exact jsSlice_self _ n
  · exact drawEffect_fixed _ n _ (drawEffect_drawnParts _ _ _)
      (drawEffect_previous _ _ _)

theorem C7_rerender_idempotent_witness :
    ((0 : ℤ) ≤ 4 ∧ (4 : ℤ) ≤ 10)
    ∧ (jsSlice (getHangmanParts 160)
          (drawEffect (getHangmanParts 160) 4 (initState 0)).drawnParts 4 = []
       ∧ drawEffect (getHangmanParts 160) 4
            (drawEffect (getHangmanParts 160) 4 (initState 0))
          = drawEffect (getHangmanParts 160) 4 (initState 0)) :=
  ⟨⟨by decide, by decide⟩,
   C7_rerender_idempotent 160 4 (initState 0) (by decide) (by decide)⟩

/-- C8 fails as stated at size 80: the body segment runs from
`y = 80/10 + 80/8 = 18` (the bottom of the head) down to `y = 80/2 = 40`, so
its height is 22, not `size/2 = 40`; the code's `bodyHeight` constant `size/2`
is the distance left below the body, not the segment's height. -/
theorem C8_proportions_counterexample : ¬ specProportions 80 := by
  intro h
  have h3 := h.2.2.1
  rw [strokeOf_body] at h3
  simp [segDy, segEndpoints, bodyHeight] at h3
  norm_num at h3

/-- C8 (amended): for every size `s` the generated operations use these
proportions — the rope drops `s/10` from the pole tip; the head is an arc of
radius `s/16` centered directly below the rope (at `y = s/10 + s/16`); the
body segment runs from `y = s/10 + s/8` down to `y = s/2` (so its bottom is at
`y = s/2` as claimed, but its height is `11·s/40`, not `s/2`); and each limb
extends `bodyHeight/3 = s/6` from its attachment point (arms horizontally,
legs by `s/6` both down and out). -/
theorem C8_proportions_amended (s : ℚ) :
    (segDy (strokeOf (rope s)) = s / 10 ∧ segDx (strokeOf (rope s)) = 0)
    ∧ arcSpec (strokeOf (head s)) = ((s / 2, s / 10 + s / 16), s / 16)
    ∧ segDy (strokeOf (body s)) = 11 * s / 40
    ∧ (segEndpoints (strokeOf (body s))).1.2 = s / 10 + s / 8
    ∧ (segEndpoints (strokeOf (body s))).2.2 = s / 2
    ∧ (segDx (strokeOf (leftArm s)) = -(s / 6) ∧ segDy (strokeOf (leftArm s)) = 0)
    ∧ (segDx (strokeOf (rightArm s)) = s / 6 ∧ segDy (strokeOf (rightArm s)) = 0)
    ∧ (segDx (strokeOf (leftLeg s)) = -(s / 6) ∧ segDy (strokeOf (leftLeg s)) = s / 6)
    ∧ (segDx (strokeOf (rightLeg s)) = s / 6 ∧ segDy (strokeOf (rightLeg s)) = s / 6) := by
  refine ⟨⟨?_, ?_⟩, ?_, ?_, ?_, ?_, ⟨?_, ?_⟩, ⟨?_, ?_⟩, ⟨?_, ?_⟩, ⟨?_, ?_⟩⟩ <;>
    simp only [strokeOf_rope, strokeOf_head, strokeOf_body, strokeOf_leftArm,
      strokeOf_rightArm, strokeOf_leftLeg, strokeOf_rightLeg, segDx, segDy,
      segEndpoints, arcSpec, bodyHeight, appendageWidth] <;> ring

/-- C9: the unmount cleanup removes the window resize listener, but — contrary
to the claim — does not cancel a pending debounced callback: after a resize
event followed by unmount within the 50 ms quiet window, the scheduled
debounced `resizeCanvas` is still pending and still fires after unmount. -/
theorem C9_unmount_leaves_debounce_pending :
    (unmountCleanup (resizeEvent (mountResize ⟨false, false⟩))).listenerRegistered
        = false
    ∧ debounceFires (unmountCleanup (resizeEvent (mountResize ⟨false, false⟩)))
        = true := by
  decide

/-- C10: for a negative guess count `-10 < n < 0`, a render starting from
drawn count 0 does not draw nothing: `slice`'s negative end index counts from
the end of the 10-element sequence, so the first `10 + n` operations are drawn
(onto the cleared surface when the count also moved backward, otherwise after
the existing strokes), and afterwards the stored drawn count is the negative
`n` itself. -/
theorem C10_negative_count_draws_from_end (s : ℚ) (n : ℤ) (st : RenderState)
    (hneg : n < 0) (hgt : -10 < n) (hd : st.drawnParts = 0) :
    (drawEffect (getHangmanParts s) n st).ctx.painted
      = (if st.previousIncorrectGuessCount > n then [] else st.ctx.painted)
        ++ (partStrokes s).take (10 + n).toNat
    ∧ (drawEffect (getHangmanParts s) n st).drawnParts = n := by
  refine ⟨?_, drawEffect_drawnParts _ _ _⟩
  by_cases hlt : st.previousIncorrectGuessCount > n
  · rw [if_pos hlt, drawEffect_painted_reset s n st hlt, jsSlice_zero_neg s n hneg]
    simp
  · rw [if_neg hlt, drawEffect_painted_no_reset s n st hlt, hd,
      jsSlice_zero_neg s n hneg]

theorem C10_negative_count_draws_from_end_witness :
    ((-3 : ℤ) < 0 ∧ (-10 : ℤ) < -3 ∧ (initState (-3)).drawnParts = 0)
    ∧ ((drawEffect (getHangmanParts 160) (-3) (initState (-3))).ctx.painted
        = (if (initState (-3)).previousIncorrectGuessCount > -3 then []
           else (initState (-3)).ctx.painted)
          ++ (partStrokes 160).take ((10 : ℤ) + -3).toNat
      ∧ (drawEffect (getHangmanParts 160) (-3) (initState (-3))).drawnParts
          = -3) :=
  ⟨⟨by decide, by decide, by decide⟩,
   C10_negative_count_draws_from_end 160 (-3) (initState (-3))
     (by decide) (by decide) (by decide)⟩

end HangmanModel
